import Mathlib

/-!
Shallow embedding of the meio actor runtime (rillrate-open/meio).

The embedding translates:
  * `src/meio/src/actor_runtime.rs` — `spawn`, `ActorRuntime::entrypoint`,
    `ActorRuntime::routine` (the `select_biased!` dispatch loop);
  * `src/meio/src/lifecycle.rs` — `LifecycleNotifier::once` and the lifecycle
    messages `Awake`, `Interrupt`, `Done`;
  * `src/meio/src/system.rs` — `wait_or_interrrupt`;
  * `src/meio/src/task.rs` — `HeartBeat::routine`.

The channel layer (`channel` / `linkage` modules: `Controller`, `Operator`,
`Address`, the two mailboxes) and the `Terminator` are not present under the
given sources; they are modelled from the specification where a claim needs
them, with doc comments saying so. Asynchronous interleaving is modelled by
explicit event lists: a schedule fixes which `select` branch fires at each
iteration, and theorems quantify over schedules.
-/

namespace Meio

/-- Actor/task identifier (`Id` from the `ids` module): opaque, cloneable,
comparable. Modelled as a tagged natural number. -/
structure Id where
  tag : Nat
deriving DecidableEq, Repr

/-- Structural event transported on the controller→operator channel:
`StopSignal` (request to stop) or `Done{id}` of a child (spec §4.3). -/
inductive Signal
  | stopSignal
  | childDone (id : Id)
deriving DecidableEq, Repr

/-- An erased envelope flowing through a mailbox. The runtime only
distinguishes the lifecycle messages (`Awake`, `Interrupt`, `Done` from
`lifecycle.rs`) and opaque user messages. -/
inductive Envelope
  | awake
  | interrupt
  | done (id : Id)
  | user (tag : Nat)
deriving DecidableEq, Repr

/-- Modelled from the spec: the `Terminator` state machine (its module is not
among the given sources). It keeps a set of live children and a
*stop-requested* flag (spec §3, §4.3). -/
structure Terminator where
  children : List Id
  stopRequested : Bool
deriving DecidableEq, Repr

/-- Result of `Terminator::track_child_or_stop_signal`, as used by
`ActorRuntime::routine`: only the `SafeToStop` case matters to the loop. -/
inductive TerminationProgress
  | shouldNotEnd
  | safeToStop
deriving DecidableEq, Repr

/-- Modelled from the spec: `track_child_or_stop_signal`. A `StopSignal` sets
*stop-requested*; a `ChildDone{id}` removes `id` from the live children.
The derived status is `SafeToStop` exactly when stop was requested and no
children remain (spec §3 "Terminator", §4.3 steps 1–2). -/
def Terminator.trackChildOrStopSignal (t : Terminator) (s : Signal) :
    Terminator × TerminationProgress :=
  match s with
  | .stopSignal =>
      let t' : Terminator := { t with stopRequested := true }
      (t', if t'.children.isEmpty then .safeToStop else .shouldNotEnd)
  | .childDone i =>
      let t' : Terminator := { t with children := t.children.filter (fun c => c ≠ i) }
      (t', if t'.stopRequested && t'.children.isEmpty then .safeToStop else .shouldNotEnd)

/-- Modelled from the spec: one receiving end of an mpsc channel, as the
`select_biased!` loop sees it (a fused stream). `queue` holds the pending
items in FIFO order, `senders` counts the live sending handles (controllers
for the operator channel, address clones for the mailboxes), and
`terminated` records that the stream already yielded its end-of-stream
`None` (a fused stream is never polled again afterwards). -/
structure SourceState (α : Type) where
  queue : List α
  senders : Nat
  terminated : Bool
deriving DecidableEq, Repr

namespace SourceState

/-- Poll the stream: `some (some a, s')` delivers the next item, `some (none, s')`
is spontaneous end of stream (possible only with no senders left), `none`
means pending (the biased select skips to the next source). -/
def poll (s : SourceState α) : Option (Option α × SourceState α) :=
  if s.terminated then none
  else
    match s.queue with
    | a :: rest => some (some a, { s with queue := rest })
    | [] =>
        if s.senders = 0 then some (none, { s with terminated := true })
        else none

/-- The source is ready (its poll would complete now). -/
def ready (s : SourceState α) : Bool :=
  !s.terminated && (!s.queue.isEmpty || s.senders == 0)

/-- Enqueue one item (a sender pushing into the channel). -/
def push (s : SourceState α) (a : α) : SourceState α :=
  { s with queue := s.queue ++ [a] }

end SourceState

/-- State of one `ActorRuntime` as `routine` sees it: the (abstract) user
actor state, the context's terminator, the operator stream, and the two
mailbox streams (`hp_msg_rx` unbounded high-priority, `msg_rx` normal).
`msgRxClosed` records that the runtime called `self.msg_rx.close()`. -/
structure Runtime where
  actor : Nat
  term : Terminator
  op : SourceState Signal
  hpQ : SourceState Envelope
  msgQ : SourceState Envelope
  msgRxClosed : Bool
deriving DecidableEq, Repr

/-- A user handler, as `Envelope::handle(&mut actor, &mut context)` sees it:
it may update the actor state and the context's terminator, and returns
`Ok(())` or an error (which `routine` only logs). -/
def HandlerFn : Type := Envelope → Nat → Terminator → Nat × Terminator × Except String Unit

/-- Outcome of one iteration of the `routine` loop. -/
inductive StepResult
  | panicked
  | blocked
  | next (rt : Runtime)
  | exits (rt : Runtime)
deriving DecidableEq, Repr

/-- Which `select_biased!` arm an iteration takes. -/
inductive Branch
  | operator
  | highPriority
  | normal
deriving DecidableEq, Repr

/-- The arm the biased select takes: `select_biased!` polls the listed
futures in order, so the first ready source wins — operator, then
high-priority mailbox, then normal mailbox (`routine`, lines 190–230). -/
def selectBranch (rt : Runtime) : Option Branch :=
  if rt.op.ready then some .operator
  else if rt.hpQ.ready then some .highPriority
  else if rt.msgQ.ready then some .normal
  else none

/-- One iteration of `ActorRuntime::routine` (actor_runtime.rs lines 188–233),
translated arm by arm:
  * operator arm: `event.expect("actor controller couldn't be closed")`
    (panic on end of stream), feed the signal to the terminator, and on
    `SafeToStop` close `msg_rx` and `break`;
  * high-priority arm: dispatch the envelope (errors only logged), or log
    and continue on end of stream;
  * normal arm: same as high-priority;
  * no arm ready: the select suspends (`blocked`). -/
def step (h : HandlerFn) (rt : Runtime) : StepResult :=
  match rt.op.poll with
  | some (ev, op') =>
      match ev with
      | some sig =>
          let p := rt.term.trackChildOrStopSignal sig
          if p.2 = .safeToStop then
            .exits { rt with term := p.1, op := op', msgRxClosed := true }
          else
            .next { rt with term := p.1, op := op' }
      | none => .panicked
  | none =>
      match rt.hpQ.poll with
      | some (item, hp') =>
          match item with
          | some env =>
              let r := h env rt.actor rt.term
              .next { rt with actor := r.1, term := r.2.1, hpQ := hp' }
          | none => .next { rt with hpQ := hp' }
      | none =>
          match rt.msgQ.poll with
          | some (item, m') =>
              match item with
              | some env =>
                  let r := h env rt.actor rt.term
                  .next { rt with actor := r.1, term := r.2.1, msgQ := m' }
              | none => .next { rt with msgQ := m' }
          | none => .blocked

/-- The effect of executing a *given* arm of the select on the runtime state
(the arm bodies of `routine`, verbatim). Together with `selectBranch` this
factors the loop iteration as "pick the highest-priority ready source, then
run its arm". -/
def branchStep (h : HandlerFn) (rt : Runtime) : Option Branch → StepResult
  | some .operator =>
      match rt.op.poll with
      | some (some sig, op') =>
          let p := rt.term.trackChildOrStopSignal sig
          if p.2 = .safeToStop then
            .exits { rt with term := p.1, op := op', msgRxClosed := true }
          else
            .next { rt with term := p.1, op := op' }
      | some (none, _) => .panicked
      | none => .blocked
  | some .highPriority =>
      match rt.hpQ.poll with
      | some (some env, hp') =>
          let r := h env rt.actor rt.term
          .next { rt with actor := r.1, term := r.2.1, hpQ := hp' }
      | some (none, hp') => .next { rt with hpQ := hp' }
      | none => .blocked
  | some .normal =>
      match rt.msgQ.poll with
      | some (some env, m') =>
          let r := h env rt.actor rt.term
          .next { rt with actor := r.1, term := r.2.1, msgQ := m' }
      | some (none, m') => .next { rt with msgQ := m' }
      | none => .blocked
  | none => .blocked

/-! ### Spawn and the race before the first poll (claim C2)

`spawn` (actor_runtime.rs lines 53–93) creates empty mailboxes, builds the
address, hands `runtime.entrypoint()` to the executor and returns the
address. The `Awake` envelope is enqueued only when `entrypoint` runs
(`awake_notifier.notify()`, line 164), which races with any sends the
caller performs through the returned address. The events below are the
possible enqueue operations between `spawn` returning and the actor's
first poll; a list of them is one interleaving. -/

/-- An enqueue happening between `spawn` and the first poll of the loop:
a holder of the address pushing a high-priority or normal envelope, or the
entrypoint firing the awake notifier (which is `send_hp_direct(Awake)`). -/
inductive SpawnEvent
  | callerEnqueueHp (e : Envelope)
  | callerEnqueueNormal (e : Envelope)
  | runtimeAwake
deriving DecidableEq, Repr

/-- Whether the event pushes onto the high-priority queue from outside. -/
def SpawnEvent.isHpEnqueue : SpawnEvent → Bool
  | .callerEnqueueHp _ => true
  | _ => false

/-- The runtime state `spawn` constructs: empty operator queue, empty
mailboxes, fresh terminator; the returned address accounts for one live
sender/controller on each channel. -/
def spawnInit : Runtime :=
  { actor := 0
    term := { children := [], stopRequested := false }
    op := { queue := [], senders := 1, terminated := false }
    hpQ := { queue := [], senders := 1, terminated := false }
    msgQ := { queue := [], senders := 1, terminated := false }
    msgRxClosed := false }

/-- Apply one pre-first-poll enqueue to the runtime state. -/
def applyEvent (rt : Runtime) : SpawnEvent → Runtime
  | .callerEnqueueHp e => { rt with hpQ := rt.hpQ.push e }
  | .callerEnqueueNormal e => { rt with msgQ := rt.msgQ.push e }
  | .runtimeAwake => { rt with hpQ := rt.hpQ.push .awake }

/-- Apply an interleaving of pre-first-poll enqueues in order. -/
def applyEvents (evs : List SpawnEvent) (rt : Runtime) : Runtime :=
  evs.foldl applyEvent rt

/-- The first envelope the dispatch loop observes from the mailboxes in a
given state: the head of the high-priority queue if any (the biased select
always prefers it), otherwise the head of the normal queue. -/
def firstEnvelope (rt : Runtime) : Option Envelope :=
  match rt.hpQ.queue with
  | e :: _ => some e
  | [] => rt.msgQ.queue.head?

/-- The runtime state at the actor's first poll, for the interleaving in
which the caller's enqueues `l1` happen before the entrypoint fires the
awake notifier and the enqueues `l2` happen after. -/
def spawnTrace (l1 l2 : List SpawnEvent) : Runtime :=
  applyEvents (l1 ++ SpawnEvent.runtimeAwake :: l2) spawnInit

/-! ### Entrypoint effect order (claim C4) -/

/-- Externally observable actions of `ActorRuntime::entrypoint`
(actor_runtime.rs lines 162–186). -/
inductive Effect
  | opInit
  | awakeNotify
  | handled (e : Envelope)
  | doneNotify
  | opFinalize
deriving DecidableEq, Repr

/-- The effect trace of `entrypoint`: set up the operator, fire the
awake notifier, run `routine` (which dispatches some envelopes), then —
after the loop exits — fire the done notifier when a supervisor was given,
and only then finalize the operator. -/
def entrypointEffects (handledMsgs : List Envelope) (hasSupervisor : Bool) :
    List Effect :=
  .opInit :: .awakeNotify :: handledMsgs.map .handled
    ++ (if hasSupervisor then [.doneNotify, .opFinalize] else [.opFinalize])

/-! ### Lifecycle notifiers (claim C5)

`LifecycleNotifier::once` (lifecycle.rs lines 21–40) wraps the message in
an `Option` and `take`s it on the first call; the second call finds `None`
and errors. The notifiers `spawn` actually installs (actor_runtime.rs
lines 65–76) are *plain closures* over `send_hp_direct` with no `Option`
state: they send on every invocation. `send_hp_direct` itself fails only
when the target mailbox is gone; `alive` models that. -/

/-- State of a `LifecycleNotifier::once` notifier: the not-yet-sent message. -/
def OnceState : Type := Option Envelope

/-- One invocation of a `LifecycleNotifier::once` notifier against a target
high-priority queue. Returns the new notifier state, the new queue, and the
`Result`. The message is `take`n before sending, exactly as in the source. -/
def onceNotify (alive : Bool) (st : OnceState) (hpQueue : List Envelope) :
    OnceState × List Envelope × Except String Unit :=
  match st with
  | some m =>
      (none,
       if alive then hpQueue ++ [m] else hpQueue,
       if alive then .ok () else .error "send_hp_direct failed: actor gone")
  | none =>
      (none, hpQueue,
       .error "Attempt to send the second notification that can be sent once only.")

/-- One invocation of the awake/done notifier closure installed by `spawn`
(`move || addr.send_hp_direct(msg)`): stateless, it sends on every call. -/
def spawnNotifierNotify (alive : Bool) (msg : Envelope) (hpQueue : List Envelope) :
    List Envelope × Except String Unit :=
  if alive then (hpQueue ++ [msg], .ok ())
  else (hpQueue, .error "send_hp_direct failed: actor gone")

/-! ### `wait_or_interrrupt` (claim C7)

system.rs lines 39–63: a `select!` loop over the Ctrl-C signal stream and
the actor's `join()` future. The events below are the possible branch
resolutions; `intrRes` is the result of `address.interrupt()` (propagated
with `?`). -/

/-- A branch resolution inside `wait_or_interrrupt`'s `select!`. -/
inductive WaitEvent
  | ctrlC
  | joinDone
deriving DecidableEq, Repr

/-- Loop state of `wait_or_interrrupt`: the `first_attempt` flag and how
many `Interrupt`s were sent so far. -/
structure WaitState where
  firstAttempt : Bool
  sent : Nat
deriving DecidableEq, Repr

/-- State at entry of the loop. -/
def waitInit : WaitState := { firstAttempt := true, sent := 0 }

/-- Outcome of processing events: still inside the loop, or returned. -/
inductive WaitResult
  | waiting (s : WaitState)
  | finished (r : Except String Unit) (s : WaitState)
deriving Repr

/-- One `select!` resolution of `wait_or_interrrupt`: a first Ctrl-C sends
`Interrupt` (propagating its error) and clears `first_attempt`; a second
Ctrl-C breaks; `join` resolving breaks. `break` then `Ok(())`. -/
def waitStep (intrRes : Except String Unit) (s : WaitState) :
    WaitEvent → WaitResult
  | .ctrlC =>
      if s.firstAttempt then
        match intrRes with
        | .ok _ => .waiting { firstAttempt := false, sent := s.sent + 1 }
        | .error e => .finished (.error e) s
      else .finished (.ok ()) s
  | .joinDone => .finished (.ok ()) s

/-- Run `wait_or_interrrupt`'s loop over a schedule of branch resolutions. -/
def waitRun (intrRes : Except String Unit) :
    List WaitEvent → WaitState → WaitResult
  | [], s => .waiting s
  | e :: rest, s =>
      match waitStep intrRes s e with
      | .waiting s' => waitRun intrRes rest s'
      | .finished r s' => .finished r s'

/-! ### `HeartBeat::routine` (claims C8, C10)

task.rs lines 36–57: a `select!` loop over the shutdown-done future and the
tick interval; `done` breaks out and the routine returns `Ok(())`;
`recipient.act(tick).await?` propagates a delivery error immediately. -/

/-- A branch resolution inside `HeartBeat::routine`'s `select!`. -/
inductive HBEvent
  | done
  | tick
deriving DecidableEq, Repr

/-- State of the heartbeat routine: how many ticks were delivered. -/
structure HBState where
  delivered : Nat
deriving DecidableEq, Repr

/-- Outcome of the heartbeat routine on a schedule prefix. -/
inductive HBOutcome
  | running (s : HBState)
  | finished (r : Except String Unit) (s : HBState)
deriving Repr

/-- One `select!` resolution of `HeartBeat::routine`. `actRes n` is the
result of `recipient.act` for the `n`-th delivery attempt: on success the
tick is delivered and the loop continues; on error the routine returns the
error at once (`?`). The `done` branch breaks, after which the routine
returns `Ok(())`. -/
def hbStep (actRes : Nat → Except String Unit) (s : HBState) :
    HBEvent → HBOutcome
  | .done => .finished (.ok ()) s
  | .tick =>
      match actRes s.delivered with
      | .ok _ => .running { delivered := s.delivered + 1 }
      | .error e => .finished (.error e) s

/-- Run `HeartBeat::routine` over a schedule of branch resolutions. -/
def hbRun (actRes : Nat → Except String Unit) :
    List HBEvent → HBState → HBOutcome
  | [], s => .running s
  | e :: rest, s =>
      match hbStep actRes s e with
      | .running s' => hbRun actRes rest s'
      | .finished r s' => .finished r s'

/-- An `act` result function that always succeeds (the recipient accepts
every tick). -/
def actAlwaysOk : Nat → Except String Unit := fun _ => .ok ()

/-- Number of `tick` resolutions in a schedule. -/
def countTicks (evs : List HBEvent) : Nat :=
  evs.countP (fun e => e = HBEvent.tick)

/-! ### Concrete states and handlers used by witnesses -/

/-- A handler whose calls all succeed (used by concrete witnesses). -/
def handlerOkW : HandlerFn := fun _ a t => (a, t, .ok ())

/-- A handler whose calls all fail (used by concrete witnesses). -/
def handlerErrW : HandlerFn := fun _ a t => (a, t, .error "handler failed")

/-- Concrete runtime state in which a stop signal is pending and the actor
has no children: the terminator will answer `SafeToStop`. -/
def rtStopW : Runtime :=
  { actor := 0
    term := { children := [], stopRequested := false }
    op := { queue := [Signal.stopSignal], senders := 1, terminated := false }
    hpQ := { queue := [], senders := 1, terminated := false }
    msgQ := { queue := [], senders := 1, terminated := false }
    msgRxClosed := false }

/-- Concrete runtime state whose high-priority stream ends spontaneously. -/
def rtHpDrainedW : Runtime :=
  { actor := 0
    term := { children := [], stopRequested := false }
    op := { queue := [], senders := 1, terminated := false }
    hpQ := { queue := [], senders := 0, terminated := false }
    msgQ := { queue := [], senders := 1, terminated := false }
    msgRxClosed := false }

/-- Concrete runtime state whose normal stream ends spontaneously. -/
def rtMsgDrainedW : Runtime :=
  { actor := 0
    term := { children := [], stopRequested := false }
    op := { queue := [], senders := 1, terminated := false }
    hpQ := { queue := [], senders := 1, terminated := false }
    msgQ := { queue := [], senders := 0, terminated := false }
    msgRxClosed := false }

/-- Concrete runtime state with one pending high-priority user envelope. -/
def rtDispatchW : Runtime :=
  { actor := 0
    term := { children := [], stopRequested := false }
    op := { queue := [], senders := 1, terminated := false }
    hpQ := { queue := [Envelope.user 3], senders := 1, terminated := false }
    msgQ := { queue := [], senders := 1, terminated := false }
    msgRxClosed := false }

/-- An `act` result function that always fails (the recipient's mailbox is
closed), used by concrete witnesses. -/
def actFailW : Nat → Except String Unit := fun _ => .error "recipient gone"

/-! ## Helper lemmas -/

theorem SourceState.poll_eq_none_iff {α : Type} (s : SourceState α) :
    s.poll = none ↔ s.ready = false := by
  rcases s with ⟨q, n, t⟩
  cases t
  · cases q
    · by_cases h : n = 0 <;> simp [poll, ready, h]
    · simp [poll, ready]
  · simp [poll, ready]

theorem SourceState.poll_of_ready {α : Type} (s : SourceState α)
    (h : s.ready = true) : ∃ x, s.poll = some x := by
  rcases hx : s.poll with _ | x
  · rw [s.poll_eq_none_iff] at hx
    rw [h] at hx
    exact absurd hx (by simp)
  · exact ⟨x, rfl⟩

theorem step_hp_head (h : HandlerFn) (rt : Runtime) (e : Envelope)
    (rest : List Envelope) (hop : rt.op.ready = false)
    (ht : rt.hpQ.terminated = false) (hq : rt.hpQ.queue = e :: rest) :
    step h rt = .next { rt with
      actor := (h e rt.actor rt.term).1
      term := (h e rt.actor rt.term).2.1
      hpQ := { rt.hpQ with queue := rest } } := by
  have hopn : rt.op.poll = none := by
    rw [SourceState.poll_eq_none_iff, hop]
  have hhp : rt.hpQ.poll = some (some e, { rt.hpQ with queue := rest }) := by
    rcases hq2 : rt.hpQ with ⟨q, n, t⟩
    rw [hq2] at hq ht
    simp only at hq ht
    simp [SourceState.poll, hq, ht]
  unfold step
  rw [hopn, hhp]

theorem step_msg_head (h : HandlerFn) (rt : Runtime) (e : Envelope)
    (rest : List Envelope) (hop : rt.op.ready = false)
    (hhp : rt.hpQ.ready = false) (ht : rt.msgQ.terminated = false)
    (hq : rt.msgQ.queue = e :: rest) :
    step h rt = .next { rt with
      actor := (h e rt.actor rt.term).1
      term := (h e rt.actor rt.term).2.1
      msgQ := { rt.msgQ with queue := rest } } := by
  have hopn : rt.op.poll = none := by
    rw [SourceState.poll_eq_none_iff, hop]
  have hhpn : rt.hpQ.poll = none := by
    rw [SourceState.poll_eq_none_iff, hhp]
  have hm : rt.msgQ.poll = some (some e, { rt.msgQ with queue := rest }) := by
    rcases hq2 : rt.msgQ with ⟨q, n, t⟩
    rw [hq2] at hq ht
    simp only at hq ht
    simp [SourceState.poll, hq, ht]
  unfold step
  rw [hopn, hhpn, hm]

theorem applyEvent_op (rt : Runtime) (ev : SpawnEvent) :
    (applyEvent rt ev).op = rt.op := by
  cases ev <;> rfl

theorem applyEvents_op (evs : List SpawnEvent) (rt : Runtime) :
    (applyEvents evs rt).op = rt.op := by
  induction evs generalizing rt with
  | nil => rfl
  | cons ev rest ih =>
      show (applyEvents rest (applyEvent rt ev)).op = rt.op
      rw [ih, applyEvent_op]

theorem applyEvent_hp_terminated (rt : Runtime) (ev : SpawnEvent) :
    (applyEvent rt ev).hpQ.terminated = rt.hpQ.terminated := by
  cases ev <;> rfl

theorem applyEvents_hp_terminated (evs : List SpawnEvent) (rt : Runtime) :
    (applyEvents evs rt).hpQ.terminated = rt.hpQ.terminated := by
  induction evs generalizing rt with
  | nil => rfl
  | cons ev rest ih =>
      show (applyEvents rest (applyEvent rt ev)).hpQ.terminated = _
      rw [ih, applyEvent_hp_terminated]

theorem applyEvent_hp_head_awake (rt : Runtime) (ev : SpawnEvent)
    (hinv : rt.hpQ.queue.head? = some Envelope.awake) :
    (applyEvent rt ev).hpQ.queue.head? = some Envelope.awake := by
  have hne : rt.hpQ.queue ≠ [] := by
    intro h0
    rw [h0] at hinv
    exact Option.noConfusion hinv
  cases ev with
  | callerEnqueueHp e =>
      show (rt.hpQ.queue ++ [e]).head? = some Envelope.awake
      rw [List.head?_append_of_ne_nil _ hne]
      exact hinv
  | callerEnqueueNormal e => exact hinv
  | runtimeAwake =>
      show (rt.hpQ.queue ++ [Envelope.awake]).head? = some Envelope.awake
      rw [List.head?_append_of_ne_nil _ hne]
      exact hinv

theorem applyEvent_awake_inv (rt : Runtime) (ev : SpawnEvent)
    (hev : ev.isHpEnqueue = false)
    (hinv : rt.hpQ.queue = [] ∨ rt.hpQ.queue.head? = some Envelope.awake) :
    (applyEvent rt ev).hpQ.queue = [] ∨
      (applyEvent rt ev).hpQ.queue.head? = some Envelope.awake := by
  cases ev with
  | callerEnqueueHp e => exact absurd hev (by simp [SpawnEvent.isHpEnqueue])
  | callerEnqueueNormal e => exact hinv
  | runtimeAwake =>
      right
      rcases hinv with h0 | hhd
      · show (rt.hpQ.queue ++ [Envelope.awake]).head? = some Envelope.awake
        rw [h0]
        rfl
      · exact applyEvent_hp_head_awake rt .runtimeAwake hhd

theorem applyEvents_awake_inv (evs : List SpawnEvent) (rt : Runtime)
    (hevs : ∀ ev ∈ evs, ev.isHpEnqueue = false)
    (hinv : rt.hpQ.queue = [] ∨ rt.hpQ.queue.head? = some Envelope.awake) :
    (applyEvents evs rt).hpQ.queue = [] ∨
      (applyEvents evs rt).hpQ.queue.head? = some Envelope.awake := by
  induction evs generalizing rt with
  | nil => exact hinv
  | cons ev rest ih =>
      show (applyEvents rest (applyEvent rt ev)).hpQ.queue = [] ∨ _
      exact ih (applyEvent rt ev)
        (fun e he => hevs e (List.mem_cons_of_mem _ he))
        (applyEvent_awake_inv rt ev (hevs ev (List.mem_cons_self _ _)) hinv)

theorem applyEvents_hp_head_awake (evs : List SpawnEvent) (rt : Runtime)
    (hinv : rt.hpQ.queue.head? = some Envelope.awake) :
    (applyEvents evs rt).hpQ.queue.head? = some Envelope.awake := by
  induction evs generalizing rt with
  | nil => exact hinv
  | cons ev rest ih =>
      show (applyEvents rest (applyEvent rt ev)).hpQ.queue.head? = _
      exact ih _ (applyEvent_hp_head_awake rt ev hinv)

theorem spawnTrace_hp_head_awake (l1 l2 : List SpawnEvent)
    (h1 : ∀ ev ∈ l1, ev.isHpEnqueue = false) :
    (spawnTrace l1 l2).hpQ.queue.head? = some Envelope.awake := by
  have hsplit : spawnTrace l1 l2 =
      applyEvents l2 (applyEvent (applyEvents l1 spawnInit) .runtimeAwake) := by
    unfold spawnTrace applyEvents
    rw [List.foldl_append, List.foldl_cons]
  have hinv := applyEvents_awake_inv l1 spawnInit h1 (Or.inl rfl)
  have h2 : (applyEvent (applyEvents l1 spawnInit)
      SpawnEvent.runtimeAwake).hpQ.queue.head? = some Envelope.awake := by
    rcases hinv with h0 | hhd
    · show ((applyEvents l1 spawnInit).hpQ.queue ++ [Envelope.awake]).head? = _
      rw [h0]
      rfl
    · exact applyEvent_hp_head_awake _ .runtimeAwake hhd
  rw [hsplit]
  exact applyEvents_hp_head_awake l2 _ h2

/-! ## Claim theorems -/

/-- C1: on every iteration of `ActorRuntime::routine`, the `select_biased!`
executes the arm of the highest-priority ready source: a structural event
from the operator is selected over a high-priority envelope, and a
high-priority envelope over a normal-priority envelope. Formally: the loop
iteration `step` equals running the arm chosen by `selectBranch`, and
`selectBranch` picks the operator whenever it is ready, the high-priority
mailbox whenever it is ready and the operator is not, and the normal
mailbox only when neither is ready. -/
theorem routine_descending_priority (h : HandlerFn) (rt : Runtime) :
    step h rt = branchStep h rt (selectBranch rt) ∧
    (rt.op.ready = true → selectBranch rt = some Branch.operator) ∧
    (rt.op.ready = false → rt.hpQ.ready = true →
      selectBranch rt = some Branch.highPriority) ∧
    (rt.op.ready = false → rt.hpQ.ready = false → rt.msgQ.ready = true →
      selectBranch rt = some Branch.normal) := by
  refine ⟨?_, ?_, ?_, ?_⟩
  · by_cases hop : rt.op.ready
    · obtain ⟨x, hx⟩ := rt.op.poll_of_ready hop
      unfold step branchStep selectBranch
      rw [hx, if_pos hop]
      rcases x with ⟨_ | sig, op'⟩ <;> rfl
    · have hopn : rt.op.poll = none := by
        rw [SourceState.poll_eq_none_iff]
        exact Bool.not_eq_true _ ▸ (by simpa using hop)
      by_cases hhp : rt.hpQ.ready
      · obtain ⟨x, hx⟩ := rt.hpQ.poll_of_ready hhp
        unfold step branchStep selectBranch
        rw [hopn, hx, if_neg (by simpa using hop), if_pos hhp]
        rcases x with ⟨_ | env, hp'⟩ <;> rfl
      · have hhpn : rt.hpQ.poll = none := by
          rw [SourceState.poll_eq_none_iff]
          simpa using hhp
        by_cases hm : rt.msgQ.ready
        · obtain ⟨x, hx⟩ := rt.msgQ.poll_of_ready hm
          unfold step branchStep selectBranch
          rw [hopn, hhpn, hx, if_neg (by simpa using hop),
            if_neg (by simpa using hhp), if_pos hm]
          rcases x with ⟨_ | env, m'⟩ <;> rfl
        · have hmn : rt.msgQ.poll = none := by
            rw [SourceState.poll_eq_none_iff]
            simpa using hm
          unfold step branchStep selectBranch
          rw [hopn, hhpn, hmn, if_neg (by simpa using hop),
            if_neg (by simpa using hhp), if_neg (by simpa using hm)]
  · intro hop
    unfold selectBranch
    rw [if_pos hop]
  · intro hop hhp
    unfold selectBranch
    rw [if_neg (by simp [hop]), if_pos hhp]
  · intro hop hhp hm
    unfold selectBranch
    rw [if_neg (by simp [hop]), if_neg (by simp [hhp]), if_pos hm]

/-- Witness for C1 at a concrete state: operator, high-priority and normal
sources all ready; the operator arm is selected. -/
theorem routine_descending_priority_witness :
    (let rt : Runtime :=
      { actor := 0
        term := { children := [], stopRequested := false }
        op := { queue := [Signal.stopSignal], senders := 1, terminated := false }
        hpQ := { queue := [Envelope.awake], senders := 1, terminated := false }
        msgQ := { queue := [Envelope.user 7], senders := 1, terminated := false }
        msgRxClosed := false }
     rt.op.ready = true ∧
       selectBranch rt = some Branch.operator ∧
       step (fun _ a t => (a, t, .ok ())) rt =
         branchStep (fun _ a t => (a, t, .ok ())) rt (selectBranch rt)) := by
  refine ⟨by decide, ?_, ?_⟩
  · exact (routine_descending_priority (fun _ a t => (a, t, .ok ())) _).2.1 (by decide)
  · exact (routine_descending_priority (fun _ a t => (a, t, .ok ())) _).1

theorem SourceState.senders_eq_zero_of_poll_end {α : Type}
    {s s' : SourceState α} (h : s.poll = some (none, s')) : s.senders = 0 := by
  rcases s with ⟨q, n, t⟩
  cases t
  · cases q
    · by_cases hn : n = 0
      · exact hn
      · simp [poll, hn] at h
    · simp [poll] at h
  · simp [poll] at h

/-- C3: the `routine` loop exits only from the operator arm when the
terminator answers `SafeToStop`, and then the normal mailbox has been
closed; spontaneous exhaustion of the high-priority or normal stream (all
senders gone) yields a `next` — the loop keeps iterating. -/
theorem routine_exit_only_safe_to_stop (h : HandlerFn) (rt : Runtime) :
    (∀ rt', step h rt = .exits rt' →
      rt'.msgRxClosed = true ∧
      ∃ sig op', rt.op.poll = some (some sig, op') ∧
        (rt.term.trackChildOrStopSignal sig).2 = TerminationProgress.safeToStop) ∧
    (rt.op.ready = false → rt.hpQ.queue = [] → rt.hpQ.senders = 0 →
      rt.hpQ.terminated = false →
      step h rt = .next { rt with hpQ := { rt.hpQ with terminated := true } }) ∧
    (rt.op.ready = false → rt.hpQ.ready = false → rt.msgQ.queue = [] →
      rt.msgQ.senders = 0 → rt.msgQ.terminated = false →
      step h rt = .next { rt with msgQ := { rt.msgQ with terminated := true } }) := by
  refine ⟨?_, ?_, ?_⟩
  · intro rt' hst
    unfold step at hst
    rcases hop : rt.op.poll with _ | ⟨ev, op'⟩
    · rw [hop] at hst
      rcases hhp : rt.hpQ.poll with _ | ⟨item, hp'⟩
      · rw [hhp] at hst
        rcases hm : rt.msgQ.poll with _ | ⟨item, m'⟩
        · rw [hm] at hst
          exact StepResult.noConfusion hst
        · rw [hm] at hst
          rcases item with _ | env <;> exact StepResult.noConfusion hst
      · rw [hhp] at hst
        rcases item with _ | env <;> exact StepResult.noConfusion hst
    · rw [hop] at hst
      rcases ev with _ | sig
      · exact StepResult.noConfusion hst
      · by_cases hp2 :
          (rt.term.trackChildOrStopSignal sig).2 = TerminationProgress.safeToStop
        · simp only [hp2, if_pos] at hst
          refine ⟨?_, sig, op', rfl, hp2⟩
          have : rt' = { rt with
              term := (rt.term.trackChildOrStopSignal sig).1, op := op',
              msgRxClosed := true } := by
            exact (StepResult.exits.injEq _ _).mp hst.symm
          rw [this]
        · simp only [hp2, if_neg, if_false] at hst
          exact StepResult.noConfusion hst
  · intro hop hq hs ht
    have hopn : rt.op.poll = none := by
      rw [SourceState.poll_eq_none_iff, hop]
    have hhp : rt.hpQ.poll = some (none, { rt.hpQ with terminated := true }) := by
      rcases hq2 : rt.hpQ with ⟨q, n, t⟩
      rw [hq2] at hq hs ht
      simp only at hq hs ht
      simp [SourceState.poll, hq, hs, ht]
    unfold step
    rw [hopn, hhp]
  · intro hop hhp hq hs ht
    have hopn : rt.op.poll = none := by
      rw [SourceState.poll_eq_none_iff, hop]
    have hhpn : rt.hpQ.poll = none := by
      rw [SourceState.poll_eq_none_iff, hhp]
    have hm : rt.msgQ.poll = some (none, { rt.msgQ with terminated := true }) := by
      rcases hq2 : rt.msgQ with ⟨q, n, t⟩
      rw [hq2] at hq hs ht
      simp only at hq hs ht
      simp [SourceState.poll, hq, hs, ht]
    unfold step
    rw [hopn, hhpn, hm]

/-- Witness for C3 at concrete states: a pending stop signal with no live
children makes the loop exit with the normal mailbox closed, and spontaneous
exhaustion of either mailbox stream yields `next` (the loop continues). -/
theorem routine_exit_only_safe_to_stop_witness :
    ((step handlerOkW rtStopW =
        .exits { rtStopW with
          term := { children := [], stopRequested := true }
          op := { queue := [], senders := 1, terminated := false }
          msgRxClosed := true }) ∧
      ({ rtStopW with
          term := { children := [], stopRequested := true }
          op := { queue := [], senders := 1, terminated := false }
          msgRxClosed := true } : Runtime).msgRxClosed = true) ∧
    step handlerOkW rtHpDrainedW =
      .next { rtHpDrainedW with
        hpQ := { rtHpDrainedW.hpQ with terminated := true } } ∧
    step handlerOkW rtMsgDrainedW =
      .next { rtMsgDrainedW with
        msgQ := { rtMsgDrainedW.msgQ with terminated := true } } := by
  refine ⟨⟨by decide, ?_⟩, ?_, ?_⟩
  · exact ((routine_exit_only_safe_to_stop handlerOkW rtStopW).1 _ (by decide)).1
  · exact (routine_exit_only_safe_to_stop handlerOkW rtHpDrainedW).2.1
      (by decide) (by decide) (by decide) (by decide)
  · exact (routine_exit_only_safe_to_stop handlerOkW rtMsgDrainedW).2.2
      (by decide) (by decide) (by decide) (by decide) (by decide)

/-- C6: when the loop dispatches an envelope (high-priority or normal), the
iteration result is `next` — the loop continues — whatever the handler
returns; the post-state is exactly the handler's output with the envelope
popped, so a handler error (which `routine` only logs) neither terminates
the actor nor alters the termination state beyond what the handler itself
did. The statement quantifies over every handler `h`, including those that
return an error. -/
theorem dispatch_error_continues (h : HandlerFn) (rt : Runtime)
    (e : Envelope) (rest : List Envelope) :
    (rt.op.ready = false → rt.hpQ.terminated = false →
      rt.hpQ.queue = e :: rest →
      step h rt = .next { rt with
        actor := (h e rt.actor rt.term).1
        term := (h e rt.actor rt.term).2.1
        hpQ := { rt.hpQ with queue := rest } }) ∧
    (rt.op.ready = false → rt.hpQ.ready = false → rt.msgQ.terminated = false →
      rt.msgQ.queue = e :: rest →
      step h rt = .next { rt with
        actor := (h e rt.actor rt.term).1
        term := (h e rt.actor rt.term).2.1
        msgQ := { rt.msgQ with queue := rest } }) := by
  exact ⟨fun hop ht hq => step_hp_head h rt e rest hop ht hq,
    fun hop hhp ht hq => step_msg_head h rt e rest hop hhp ht hq⟩

/-- Witness for C6 at a concrete state with a *failing* handler: the
iteration still yields `next`, with the envelope popped and the terminator
exactly the handler's output. -/
theorem dispatch_error_continues_witness :
    step handlerErrW rtDispatchW = .next { rtDispatchW with
      actor := (handlerErrW (Envelope.user 3) rtDispatchW.actor rtDispatchW.term).1
      term := (handlerErrW (Envelope.user 3) rtDispatchW.actor rtDispatchW.term).2.1
      hpQ := { rtDispatchW.hpQ with queue := [] } } := by
  exact (dispatch_error_continues handlerErrW rtDispatchW (Envelope.user 3) []).1
    (by decide) (by decide) (by decide)

/-- C9: while the loop runs, at least one controller clone exists (the
actor's own address, held in its context, carries one), so the operator
stream never yields end-of-stream and the `expect("actor controller
couldn't be closed")` branch is unreachable: under `0 < controllers` the
iteration never panics. -/
theorem operator_expect_unreachable (h : HandlerFn) (rt : Runtime)
    (hc : 0 < rt.op.senders) : step h rt ≠ StepResult.panicked := by
  intro hst
  unfold step at hst
  rcases hop : rt.op.poll with _ | ⟨ev, op'⟩
  · rw [hop] at hst
    rcases hhp : rt.hpQ.poll with _ | ⟨item, hp'⟩
    · rw [hhp] at hst
      rcases hm : rt.msgQ.poll with _ | ⟨item, m'⟩
      · rw [hm] at hst
        exact StepResult.noConfusion hst
      · rw [hm] at hst
        rcases item with _ | env <;> exact StepResult.noConfusion hst
    · rw [hhp] at hst
      rcases item with _ | env <;> exact StepResult.noConfusion hst
  · rw [hop] at hst
    rcases ev with _ | sig
    · have h0 := SourceState.senders_eq_zero_of_poll_end hop
      omega
    · by_cases hp2 :
        (rt.term.trackChildOrStopSignal sig).2 = TerminationProgress.safeToStop
      · simp only [hp2, if_pos] at hst
        exact StepResult.noConfusion hst
      · simp only [hp2, if_neg, if_false] at hst
        exact StepResult.noConfusion hst

/-- Witness for C9 at a concrete state whose operator holds one controller. -/
theorem operator_expect_unreachable_witness :
    step handlerOkW rtStopW ≠ StepResult.panicked := by
  exact operator_expect_unreachable handlerOkW rtStopW (by decide)

/-- C2 counterexample: the claim fails as stated. `spawn` returns the
address *before* the spawned `entrypoint` future runs its awake notifier
(actor_runtime.rs line 91 vs line 164), so a holder of the address can
enqueue onto the unbounded high-priority path first. In the interleaving
where the caller enqueues `Interrupt` before the entrypoint fires the
awake notifier, the first envelope the handler loop observes is
`Interrupt`, not `Awake`: the dispatch step pops `Interrupt` and leaves
`Awake` still queued. -/
theorem awake_first_counterexample :
    firstEnvelope (spawnTrace [SpawnEvent.callerEnqueueHp Envelope.interrupt] []) =
      some Envelope.interrupt ∧
    firstEnvelope (spawnTrace [SpawnEvent.callerEnqueueHp Envelope.interrupt] []) ≠
      some Envelope.awake ∧
    step handlerOkW (spawnTrace [SpawnEvent.callerEnqueueHp Envelope.interrupt] []) =
      .next { spawnTrace [SpawnEvent.callerEnqueueHp Envelope.interrupt] [] with
        hpQ := { (spawnTrace [SpawnEvent.callerEnqueueHp Envelope.interrupt] []).hpQ with
          queue := [Envelope.awake] } } := by
  refine ⟨by decide, by decide, by decide⟩

/-- C2 (amended): for every spawned actor, the first envelope the handler
loop observes is `Awake`, *provided no high-priority envelope was enqueued
before the entrypoint fired the awake notifier*; normal-priority envelopes
enqueued at any time before the first poll never displace `Awake`, because
the biased select drains the high-priority mailbox first. Formally: for
every interleaving `l1 ++ [awake-notify] ++ l2` in which `l1` contains no
high-priority enqueue, the first envelope is `Awake`, and the first
iteration of the loop dispatches `Awake` to the handler. -/
theorem awake_first_amended (h : HandlerFn) (l1 l2 : List SpawnEvent)
    (h1 : ∀ ev ∈ l1, ev.isHpEnqueue = false) :
    firstEnvelope (spawnTrace l1 l2) = some Envelope.awake ∧
    ∃ rest, (spawnTrace l1 l2).hpQ.queue = Envelope.awake :: rest ∧
      step h (spawnTrace l1 l2) = .next { spawnTrace l1 l2 with
        actor := (h Envelope.awake (spawnTrace l1 l2).actor (spawnTrace l1 l2).term).1
        term := (h Envelope.awake (spawnTrace l1 l2).actor (spawnTrace l1 l2).term).2.1
        hpQ := { (spawnTrace l1 l2).hpQ with queue := rest } } := by
  have hhd := spawnTrace_hp_head_awake l1 l2 h1
  rcases hq : (spawnTrace l1 l2).hpQ.queue with _ | ⟨a, rest⟩
  · rw [hq] at hhd
    exact absurd hhd (by simp)
  · rw [hq] at hhd
    have ha : a = Envelope.awake := by
      simpa using hhd
    subst ha
    have hopr : (spawnTrace l1 l2).op.ready = false := by
      have : (spawnTrace l1 l2).op = spawnInit.op := applyEvents_op _ _
      rw [this]
      decide
    have hterm : (spawnTrace l1 l2).hpQ.terminated = false := by
      have h2 : (spawnTrace l1 l2).hpQ.terminated = spawnInit.hpQ.terminated :=
        applyEvents_hp_terminated _ _
      exact h2
    refine ⟨?_, rest, rfl, ?_⟩
    · unfold firstEnvelope
      rw [hq]
    · exact step_hp_head h (spawnTrace l1 l2) Envelope.awake rest hopr hterm hq

/-- Witness for C2 (amended) at a concrete interleaving: one normal
envelope enqueued before the awake notifier fires and one high-priority
envelope after; `Awake` is still the first envelope dispatched. -/
theorem awake_first_amended_witness :
    firstEnvelope (spawnTrace [SpawnEvent.callerEnqueueNormal (Envelope.user 5)]
        [SpawnEvent.callerEnqueueHp (Envelope.user 9)]) = some Envelope.awake ∧
    ∃ rest, (spawnTrace [SpawnEvent.callerEnqueueNormal (Envelope.user 5)]
        [SpawnEvent.callerEnqueueHp (Envelope.user 9)]).hpQ.queue =
          Envelope.awake :: rest ∧
      step handlerOkW (spawnTrace [SpawnEvent.callerEnqueueNormal (Envelope.user 5)]
          [SpawnEvent.callerEnqueueHp (Envelope.user 9)]) =
        .next { spawnTrace [SpawnEvent.callerEnqueueNormal (Envelope.user 5)]
            [SpawnEvent.callerEnqueueHp (Envelope.user 9)] with
          actor := (handlerOkW Envelope.awake
            (spawnTrace [SpawnEvent.callerEnqueueNormal (Envelope.user 5)]
              [SpawnEvent.callerEnqueueHp (Envelope.user 9)]).actor
            (spawnTrace [SpawnEvent.callerEnqueueNormal (Envelope.user 5)]
              [SpawnEvent.callerEnqueueHp (Envelope.user 9)]).term).1
          term := (handlerOkW Envelope.awake
            (spawnTrace [SpawnEvent.callerEnqueueNormal (Envelope.user 5)]
              [SpawnEvent.callerEnqueueHp (Envelope.user 9)]).actor
            (spawnTrace [SpawnEvent.callerEnqueueNormal (Envelope.user 5)]
              [SpawnEvent.callerEnqueueHp (Envelope.user 9)]).term).2.1
          hpQ := { (spawnTrace [SpawnEvent.callerEnqueueNormal (Envelope.user 5)]
              [SpawnEvent.callerEnqueueHp (Envelope.user 9)]).hpQ with
            queue := rest } } := by
  exact awake_first_amended handlerOkW
    [SpawnEvent.callerEnqueueNormal (Envelope.user 5)]
    [SpawnEvent.callerEnqueueHp (Envelope.user 9)] (by decide)

theorem effectTail_indexOf_done (msgs : List Envelope) :
    (msgs.map Effect.handled ++
      [Effect.doneNotify, Effect.opFinalize]).indexOf Effect.doneNotify =
      msgs.length := by
  induction msgs with
  | nil => rfl
  | cons e ms ih =>
      show (Effect.handled e ::
        (ms.map Effect.handled ++ _)).indexOf Effect.doneNotify = _
      rw [List.indexOf_cons_ne _ (by simp), ih]
      rfl

theorem effectTail_indexOf_fin (msgs : List Envelope) :
    (msgs.map Effect.handled ++
      [Effect.doneNotify, Effect.opFinalize]).indexOf Effect.opFinalize =
      msgs.length + 1 := by
  induction msgs with
  | nil => rfl
  | cons e ms ih =>
      show (Effect.handled e ::
        (ms.map Effect.handled ++ _)).indexOf Effect.opFinalize = _
      rw [List.indexOf_cons_ne _ (by simp), ih]
      rfl

theorem entrypointEffects_with_supervisor (msgs : List Envelope) :
    entrypointEffects msgs true =
      Effect.opInit :: Effect.awakeNotify ::
        (msgs.map Effect.handled ++ [Effect.doneNotify, Effect.opFinalize]) := by
  simp [entrypointEffects]

/-- C4: after the loop exits, `entrypoint` fires the done notifier
(delivering `Done{id=self}` to the supervisor) strictly before it
finalizes the operator: in the effect trace of every run with a
supervisor, `doneNotify` occurs, `opFinalize` occurs, and `doneNotify`'s
position is strictly earlier; without a supervisor no done notification
is fired at all. -/
theorem done_before_finalize (msgs : List Envelope) :
    Effect.doneNotify ∈ entrypointEffects msgs true ∧
    Effect.opFinalize ∈ entrypointEffects msgs true ∧
    (entrypointEffects msgs true).indexOf Effect.doneNotify <
      (entrypointEffects msgs true).indexOf Effect.opFinalize ∧
    Effect.doneNotify ∉ entrypointEffects msgs false := by
  refine ⟨?_, ?_, ?_, ?_⟩
  · simp [entrypointEffects]
  · simp [entrypointEffects]
  · rw [entrypointEffects_with_supervisor,
      List.indexOf_cons_ne _ (by simp), List.indexOf_cons_ne _ (by simp),
      List.indexOf_cons_ne _ (by simp), List.indexOf_cons_ne _ (by simp),
      effectTail_indexOf_done, effectTail_indexOf_fin]
    omega
  · simp [entrypointEffects]

/-- C5 counterexample: the awake notifier installed by `spawn`
(actor_runtime.rs line 66) is a plain closure over `send_hp_direct`, not a
`LifecycleNotifier::once` value: invoking it a second time succeeds and
enqueues a second `Awake` instead of returning an error, refuting "any
second invocation of the same notifier returns an error ... including the
awake and done notifiers installed at spawn". -/
theorem notifier_one_shot_counterexample :
    (spawnNotifierNotify true Envelope.awake
      (spawnNotifierNotify true Envelope.awake []).1).2 = Except.ok () ∧
    (spawnNotifierNotify true Envelope.awake
      (spawnNotifierNotify true Envelope.awake []).1).1 =
      [Envelope.awake, Envelope.awake] := by
  exact ⟨rfl, rfl⟩

/-- C5 (amended): notifiers built by `LifecycleNotifier::once` are
one-shot — the first invocation takes the message, sends it via the
high-priority path and returns success when the target is alive, and any
later invocation returns an error (the message is consumed even when the
send fails). The awake and done notifiers installed at spawn, however, are
plain closures over `send_hp_direct`: they send on every invocation, and a
second invocation succeeds when the target is alive. -/
theorem notifier_one_shot_amended (m : Envelope) (q q2 : List Envelope) :
    onceNotify true (some m) q = (none, q ++ [m], Except.ok ()) ∧
    (∀ alive, (onceNotify alive (some m) q).1 = none) ∧
    (∀ alive, (onceNotify alive none q2).2.2 =
      Except.error
        "Attempt to send the second notification that can be sent once only.") ∧
    (∀ alive, (onceNotify alive none q2).2.1 = q2) ∧
    spawnNotifierNotify true m q = (q ++ [m], Except.ok ()) := by
  refine ⟨rfl, ?_, ?_, ?_, rfl⟩
  · intro alive
    cases alive <;> rfl
  · intro alive
    cases alive <;> rfl
  · intro alive
    cases alive <;> rfl

/-- C7: in `wait_or_interrrupt` (when `address.interrupt()` succeeds), the
first Ctrl-C resolution sends exactly one `Interrupt` and stays in the
loop; a second Ctrl-C finishes immediately — regardless of any later
events, with still only one `Interrupt` sent — and the `join` future
resolving finishes the loop as well, returning `Ok(())` in both cases. -/
theorem wait_or_interrrupt_ok (s : WaitState) (evs : List WaitEvent) :
    (s.firstAttempt = true →
      waitStep (.ok ()) s .ctrlC =
        .waiting { firstAttempt := false, sent := s.sent + 1 }) ∧
    (s.firstAttempt = false →
      waitStep (.ok ()) s .ctrlC = .finished (.ok ()) s) ∧
    waitStep (.ok ()) s .joinDone = .finished (.ok ()) s ∧
    waitRun (.ok ()) [WaitEvent.ctrlC] waitInit =
      .waiting { firstAttempt := false, sent := 1 } ∧
    waitRun (.ok ()) (WaitEvent.ctrlC :: WaitEvent.ctrlC :: evs) waitInit =
      .finished (.ok ()) { firstAttempt := false, sent := 1 } := by
    refine ⟨?_, ?_, rfl, rfl, rfl⟩
    · intro hf
      unfold waitStep
      rw [hf]
      rfl
    · intro hf
      unfold waitStep
      rw [hf]
      rfl

/-- Witness for C7 at the concrete entry state and a concrete schedule:
first Ctrl-C sends one `Interrupt` and waits, a second Ctrl-C (followed by
further events) finishes with one `Interrupt` sent, `join` finishes. -/
theorem wait_or_interrrupt_ok_witness :
    waitStep (.ok ()) waitInit .ctrlC =
      .waiting { firstAttempt := false, sent := 1 } ∧
    waitStep (.ok ()) { firstAttempt := false, sent := 1 } .ctrlC =
      .finished (.ok ()) { firstAttempt := false, sent := 1 } ∧
    waitRun (.ok ()) [WaitEvent.ctrlC, WaitEvent.ctrlC, WaitEvent.joinDone]
      waitInit = .finished (.ok ()) { firstAttempt := false, sent := 1 } := by
  refine ⟨?_, ?_, ?_⟩
  · exact (wait_or_interrrupt_ok waitInit []).1 rfl
  · exact (wait_or_interrrupt_ok { firstAttempt := false, sent := 1 } []).2.1 rfl
  · exact (wait_or_interrrupt_ok waitInit [WaitEvent.joinDone]).2.2.2.2

/-- C8: once the shutdown receiver's `done` branch is taken,
`HeartBeat::routine` breaks out of its loop and returns `Ok(())`, and no
further `Tick` is delivered: for every schedule whose prefix before the
first `done` consists of (successful) ticks, the routine finishes with
`Ok(())` having delivered exactly the prefix's ticks, whatever events
would have followed. -/
theorem heartbeat_stops_on_done (evs1 evs2 : List HBEvent) (s : HBState)
    (h1 : ∀ ev ∈ evs1, ev ≠ HBEvent.done) :
    hbRun actAlwaysOk (evs1 ++ HBEvent.done :: evs2) s =
      .finished (.ok ()) { delivered := s.delivered + evs1.length } := by
  induction evs1 generalizing s with
  | nil =>
      show hbRun actAlwaysOk (HBEvent.done :: evs2) s = _
      simp [hbRun, hbStep]
  | cons ev rest ih =>
      cases ev with
      | done => exact absurd rfl (h1 HBEvent.done (List.mem_cons_self _ _))
      | tick =>
          show hbRun actAlwaysOk (HBEvent.tick :: (rest ++ HBEvent.done :: evs2)) s = _
          have hstep : hbStep actAlwaysOk s HBEvent.tick =
              .running { delivered := s.delivered + 1 } := rfl
          unfold hbRun
          rw [hstep]
          show hbRun actAlwaysOk (rest ++ HBEvent.done :: evs2)
            { delivered := s.delivered + 1 } = _
          rw [ih { delivered := s.delivered + 1 }
            (fun e he => h1 e (List.mem_cons_of_mem _ he))]
          have harith : s.delivered + 1 + rest.length =
              s.delivered + (HBEvent.tick :: rest).length := by
            simp only [List.length_cons]
            omega
          rw [harith]

/-- Witness for C8 at a concrete schedule: two ticks, then shutdown, then
a tick that never gets delivered. -/
theorem heartbeat_stops_on_done_witness :
    hbRun actAlwaysOk
      [HBEvent.tick, HBEvent.tick, HBEvent.done, HBEvent.tick] ⟨0⟩ =
      .finished (.ok ()) ⟨2⟩ := by
  have h := heartbeat_stops_on_done [HBEvent.tick, HBEvent.tick]
    [HBEvent.tick] ⟨0⟩ (by decide)
  simpa using h

/-- C10: if delivering a `Tick` fails (`recipient.act(tick).await?`), the
`HeartBeat` routine returns that error immediately: the remaining schedule
is never processed and no further tick is delivered. -/
theorem heartbeat_act_error_stops (actRes : Nat → Except String Unit)
    (s : HBState) (e : String) (he : actRes s.delivered = .error e)
    (evs : List HBEvent) :
    hbRun actRes (HBEvent.tick :: evs) s = .finished (.error e) s ∧
    hbStep actRes s HBEvent.tick = .finished (.error e) s := by
  have hstep : hbStep actRes s HBEvent.tick = .finished (.error e) s := by
    unfold hbStep
    rw [he]
  refine ⟨?_, hstep⟩
  unfold hbRun
  rw [hstep]

/-- Witness for C10 at a concrete failing recipient and schedule: the
first delivery attempt fails and the routine returns that error with no
tick delivered, with two scheduled ticks left unprocessed. -/
theorem heartbeat_act_error_stops_witness :
    hbRun actFailW [HBEvent.tick, HBEvent.tick, HBEvent.tick] ⟨0⟩ =
      .finished (.error "recipient gone") ⟨0⟩ := by
  exact (heartbeat_act_error_stops actFailW ⟨0⟩ "recipient gone" rfl
    [HBEvent.tick, HBEvent.tick]).1

end Meio
